import Mathlib

/-!
Shallow embedding of the StellarRoute repository components that the
specification claims talk about, together with theorems settling each claim.

Modelling conventions:
* Rust `u32`/`u64` counters and second-granularity `Duration`s are modelled as
  `Nat`.  None of the modelled code paths can overflow a `u64` under the
  modelled preconditions, and `Instant::duration_since` saturates at zero just
  as `Nat` subtraction does.
* The monotonic clock (`Instant::now`) and the wall clock (`unix_now`) are
  passed explicitly to each call as `now` and `unixNow`.
* Fallible external effects (Redis commands, database upserts, wire-offer
  conversion) are passed in as explicit outcome values or oracle functions;
  the embedded definitions mirror how the source reacts to each outcome.
* Header text handed to `extract_ip` is modelled as `List Char` so that the
  `split`/`trim` steps of the source stay kernel-computable.
-/

namespace StellarRoute

/-! ## Rate limiter (src/crates/api/src/middleware/rate_limit.rs) -/

/-- Rate limit configuration for a single endpoint group
(`RateLimitConfig` in rate_limit.rs); `window` is in seconds. -/
structure RateLimitConfig where
  max_requests : Nat
  window : Nat
deriving Repr, DecidableEq

/-- Information about the current rate-limit state for a request
(`RateLimitInfo` in rate_limit.rs). -/
structure RateLimitInfo where
  limit : Nat
  remaining : Nat
  reset : Nat
  denied : Bool
deriving Repr, DecidableEq

/-- The in-memory backend map: IP+endpoint key to `(count, window_start)`
(`InMemoryStore.windows` in rate_limit.rs).  `window_start` is a monotonic
instant in seconds. -/
def InMemoryStore : Type := String → Option (Nat × Nat)

/-- The store `InMemoryStore::default()` starts from. -/
def emptyStore : InMemoryStore := fun _ => none

/-- One call of `InMemoryStore::check`.  `now` is the monotonic clock
(`Instant::now()`), `unixNow` the wall clock (`unix_now()`), both in seconds.
Returns the produced `RateLimitInfo` together with the updated store. -/
def InMemoryStore.check (store : InMemoryStore) (key : String)
    (config : RateLimitConfig) (now unixNow : Nat) :
    RateLimitInfo × InMemoryStore :=
  let entry0 := (store key).getD (0, now)
  let entry1 := if config.window ≤ now - entry0.2 then (0, now) else entry0
  let resetUnix := unixNow + (config.window - (now - entry1.2))
  if entry1.1 < config.max_requests then
    let entry2 := (entry1.1 + 1, entry1.2)
    (⟨config.max_requests, config.max_requests - entry2.1, resetUnix, false⟩,
      fun k => if k = key then some entry2 else store k)
  else
    (⟨config.max_requests, 0, resetUnix, true⟩,
      fun k => if k = key then some entry1 else store k)

/-- Run a sequence of `InMemoryStore::check` calls for one key; every element
of `times` is the `(now, unixNow)` clock pair of one call.  Returns the list
of produced infos and the final store. -/
def runChecks (store : InMemoryStore) (key : String)
    (config : RateLimitConfig) :
    List (Nat × Nat) → List RateLimitInfo × InMemoryStore
  | [] => ([], store)
  | t :: rest =>
    let step := store.check key config t.1 t.2
    let tail := runChecks step.2 key config rest
    (step.1 :: tail.1, tail.2)

/-- Number of allowed (`denied = false`) responses in a list of infos. -/
def countAllowed (infos : List RateLimitInfo) : Nat :=
  infos.countP (fun i => !i.denied)

/-- Number of denied responses in a list of infos. -/
def countDenied (infos : List RateLimitInfo) : Nat :=
  infos.countP (fun i => i.denied)

/-- Run a sequence of `InMemoryStore::check` calls over arbitrary keys, the
configuration of each call determined from the key by `cfgOf` (keys are always
checked with the same configuration).  Each element of `calls` is
`(key, now, unixNow)`. -/
def runMulti (cfgOf : String → RateLimitConfig) (store : InMemoryStore) :
    List (String × Nat × Nat) → InMemoryStore
  | [] => store
  | c :: rest => runMulti cfgOf (store.check c.1 (cfgOf c.1) c.2.1 c.2.2).2 rest

/-- The `redis_check` function of rate_limit.rs.  The outcomes of the three
Redis commands are inputs: `incrRes` is the value returned by `INCR` (or
`none` on command failure), `_expireRes` the outcome of the conditional
`EXPIRE` (its result is discarded by the source), and `ttlRes` the `TTL`
read (or `none` on failure, which the source maps to the window length with
`unwrap_or`).  Returns `none` exactly when `INCR` failed. -/
def redis_check (incrRes : Option Nat) (_expireRes : Option Unit)
    (ttlRes : Option Nat) (config : RateLimitConfig) (unixNow : Nat) :
    Option RateLimitInfo :=
  match incrRes with
  | none => none
  | some count =>
    let ttlSecs := ttlRes.getD config.window
    let reset := unixNow + ttlSecs
    let denied := decide (config.max_requests < count)
    some ⟨config.max_requests,
      if denied then 0 else config.max_requests - count, reset, denied⟩

/-- The Redis arm of `Backend::check`: on `redis_check` returning `none`
(Redis unavailable) it soft-fails with a synthetic allow decision. -/
def Backend.checkRedis (incrRes : Option Nat) (expireRes : Option Unit)
    (ttlRes : Option Nat) (config : RateLimitConfig) (unixNow : Nat) :
    RateLimitInfo :=
  match redis_check incrRes expireRes ttlRes config unixNow with
  | some info => info
  | none =>
    ⟨config.max_requests, config.max_requests,
      unixNow + config.window, false⟩

/-! ## Client IP extraction (`extract_ip` in rate_limit.rs) -/

/-- Model of `std::net::IpAddr`. -/
inductive IpAddr where
  | v4 (a b c d : Nat)
  | v6 (segments : List Nat)
deriving Repr, DecidableEq

/-- Model of Rust `str::split(',').next()`: the text before the first comma
(the whole text when no comma occurs). -/
def firstCommaToken (s : List Char) : List Char :=
  s.takeWhile (fun c => c ≠ ',')

/-- Model of Rust `str::trim`: strip leading and trailing whitespace. -/
def trimChars (s : List Char) : List Char :=
  ((s.dropWhile Char.isWhitespace).reverse.dropWhile Char.isWhitespace).reverse

/-- The `extract_ip` function of rate_limit.rs.  `parseIp` models
`str::parse::<IpAddr>` (standard-library code, abstracted as an oracle);
`xForwardedFor` / `xRealIp` are the header values when present and valid
UTF-8 (`headers().get(..).and_then(to_str)`). -/
def extract_ip (parseIp : List Char → Option IpAddr)
    (xForwardedFor xRealIp : Option (List Char)) : IpAddr :=
  let fromForwarded : Option IpAddr :=
    match xForwardedFor with
    | some fwd => parseIp (trimChars (firstCommaToken fwd))
    | none => none
  match fromForwarded with
  | some ip => ip
  | none =>
    match xRealIp with
    | some real =>
      match parseIp (trimChars real) with
      | some ip => ip
      | none => IpAddr.v4 127 0 0 1
    | none => IpAddr.v4 127 0 0 1

/-- A sample IP parser used to instantiate oracle-parameterized statements on
concrete inputs: accepts exactly the text `10.0.0.1`. -/
def sampleParseIp : List Char → Option IpAddr :=
  fun s =>
    if s = ['1', '0', '.', '0', '.', '0', '.', '1'] then
      some (IpAddr.v4 10 0 0 1)
    else none

/-! ## Middleware response assembly (rate_limit.rs) and API models -/

/-- The `ErrorResponse` body of src/crates/api/src/models/response.rs
(the optional `details` field is `None` everywhere the middleware and
`ApiError` construct one, so it is omitted). -/
structure ErrorResponse where
  error : String
  message : String
deriving Repr, DecidableEq

/-- An HTTP response as the middleware observes it: status code, header map,
and, when the body was built from an `ErrorResponse`, that body. -/
structure HttpResponse where
  status : Nat
  headers : String → Option String
  errorBody : Option ErrorResponse

/-- Model of `HeaderMap::insert`: later insertions shadow earlier ones. -/
def insertHeader (headers : String → Option String) (name value : String) :
    String → Option String :=
  fun k => if k = name then some value else headers k

/-- The `add_rate_limit_headers` function of rate_limit.rs (all three values
are decimal digit strings, so `HeaderValue::from_str` always succeeds). -/
def add_rate_limit_headers (headers : String → Option String)
    (info : RateLimitInfo) : String → Option String :=
  let h1 := insertHeader headers "x-ratelimit-limit" (toString info.limit)
  let h2 := insertHeader h1 "x-ratelimit-remaining" (toString info.remaining)
  insertHeader h2 "x-ratelimit-reset" (toString info.reset)

/-- The response-assembly tail of `RateLimitService::call`: given the
backend's decision `info`, the wall clock, and the inner service's response,
produce the response the middleware returns. -/
def rateLimitServiceCall (info : RateLimitInfo) (unixNow : Nat)
    (inner : HttpResponse) : HttpResponse :=
  if info.denied then
    let retryAfter := info.reset - unixNow
    let base : HttpResponse :=
      { status := 429
        headers := fun _ => none
        errorBody := some ⟨"rate_limit_exceeded",
          "Too many requests. Please try again later."⟩ }
    { base with
      headers := insertHeader (add_rate_limit_headers base.headers info)
        "retry-after" (toString retryAfter) }
  else
    { inner with headers := add_rate_limit_headers inner.headers info }

/-! ## API error mapping (src/crates/api/src/error.rs) -/

/-- The `ApiError` enum of error.rs; payloads of `Internal` and `Database`
carry the underlying error's display text. -/
inductive ApiError where
  | Internal (msg : String)
  | BadRequest (msg : String)
  | NotFound (msg : String)
  | Database (msg : String)
  | Validation (msg : String)
  | RateLimitExceeded
  | Unauthorized (msg : String)
  | InvalidAsset (msg : String)
  | NoRouteFound
deriving Repr, DecidableEq

/-- The `IntoResponse` implementation for `ApiError`: status code together
with the `ErrorResponse` body. -/
def ApiError.into_response : ApiError → Nat × ErrorResponse
  | .BadRequest msg => (400, ⟨"bad_request", msg⟩)
  | .NotFound msg => (404, ⟨"not_found", msg⟩)
  | .Validation msg => (400, ⟨"validation_error", msg⟩)
  | .RateLimitExceeded =>
    (429, ⟨"rate_limit_exceeded", "Too many requests. Please try again later."⟩)
  | .Unauthorized msg => (401, ⟨"unauthorized", msg⟩)
  | .InvalidAsset msg => (400, ⟨"invalid_asset", msg⟩)
  | .NoRouteFound => (404, ⟨"no_route", "No trading route found for this pair"⟩)
  | .Database _ => (500, ⟨"internal_error", "An internal error occurred"⟩)
  | .Internal _ => (500, ⟨"internal_error", "An internal error occurred"⟩)

/-! ## Response models (src/crates/api/src/models/response.rs) -/

/-- The `AssetInfo` struct of response.rs. -/
structure AssetInfo where
  asset_type : String
  asset_code : Option String
  asset_issuer : Option String
deriving Repr, DecidableEq

/-- The `AssetInfo::to_canonical` method of response.rs. -/
def AssetInfo.to_canonical (a : AssetInfo) : String :=
  match a.asset_code, a.asset_issuer with
  | none, _ => "native"
  | some code, some issuer => code ++ ":" ++ issuer
  | some code, none => code

/-- The `HealthResponse` struct exactly as declared in response.rs:
`status` and `version` strings and an `i64` timestamp; no further fields. -/
structure HealthResponse where
  status : String
  version : String
  timestamp : Int
deriving Repr, DecidableEq

/-- A fragment of the JSON value model, enough to state what serde's derived
`Serialize` produces for the response structs. -/
inductive JsonValue where
  | str (s : String)
  | int (n : Int)
  | obj (fields : List (String × JsonValue))
deriving Repr

/-- Field lookup on a JSON object value. -/
def JsonValue.lookupField : JsonValue → String → Option JsonValue
  | .obj fields, name => fields.lookup name
  | _, _ => none

/-- Whether a JSON value is a string. -/
def JsonValue.isString : JsonValue → Bool
  | .str _ => true
  | _ => false

/-- Serde's derived serialization of `HealthResponse`: its declared fields in
declaration order, `i64` becoming a JSON number. -/
def HealthResponse.toJson (h : HealthResponse) : JsonValue :=
  .obj [("status", .str h.status), ("version", .str h.version),
    ("timestamp", .int h.timestamp)]

/-! ## Indexer ingestion (src/crates/indexer/src/sdex.rs) -/

/-- The `Asset` enum of src/crates/indexer/src/models/asset.rs. -/
inductive Asset where
  | Native
  | CreditAlphanum4 (asset_code asset_issuer : String)
  | CreditAlphanum12 (asset_code asset_issuer : String)
deriving Repr, DecidableEq

/-- Modelled from the spec: the `Offer` struct (crates/indexer/src/models/
offer.rs is not under src/); the fields follow spec section 3
("Offer. Fields: id, seller, selling, buying, amount, price, price_n,
price_d, last_modified_ledger, last_modified_time"). -/
structure Offer where
  id : Nat
  seller : String
  selling : Asset
  buying : Asset
  amount : String
  price : String
  price_n : Int
  price_d : Int
  last_modified_ledger : Nat
  last_modified_time : Option String
deriving Repr, DecidableEq

/-- The `for` loop of `SdexIndexer::index_offers`, accumulating `indexed`.
`tryFrom` models `Offer::try_from` on a wire offer; `upsertAssetOk` and
`upsertOfferOk` model whether `upsert_asset` / `upsert_offer` succeed (the
source matches on their results and never propagates an error out of the
loop; asset-upsert results are logged and discarded). -/
def index_offers_loop {W : Type} (tryFrom : W → Except String Offer)
    (upsertAssetOk : Asset → Bool) (upsertOfferOk : Offer → Bool) :
    List W → Nat → Nat
  | [], indexed => indexed
  | w :: rest, indexed =>
    match tryFrom w with
    | .error _ => index_offers_loop tryFrom upsertAssetOk upsertOfferOk rest indexed
    | .ok offer =>
      let _sellRes := upsertAssetOk offer.selling
      let _buyRes := upsertAssetOk offer.buying
      index_offers_loop tryFrom upsertAssetOk upsertOfferOk rest
        (if upsertOfferOk offer then indexed + 1 else indexed)

/-- The `SdexIndexer::index_offers` method: a fetch failure propagates with
`?`; otherwise the loop runs over the fetched page and the method returns
`Ok(indexed)` (the loop body contains no `?`). -/
def index_offers {W : Type} (tryFrom : W → Except String Offer)
    (upsertAssetOk : Asset → Bool) (upsertOfferOk : Offer → Bool)
    (fetchRes : Except String (List W)) : Except String Nat :=
  match fetchRes with
  | .error e => .error e
  | .ok page => .ok (index_offers_loop tryFrom upsertAssetOk upsertOfferOk page 0)

/-! ## Helper lemmas for the in-memory limiter -/

/-- Evaluation of one `InMemoryStore::check` call on a key whose stored
window has not expired. -/
theorem check_no_reset (store : InMemoryStore) (key : String)
    (cfg : RateLimitConfig) (now unixNow c ws : Nat)
    (hs : store key = some (c, ws)) (hwin : now - ws < cfg.window) :
    store.check key cfg now unixNow =
      if c < cfg.max_requests then
        (⟨cfg.max_requests, cfg.max_requests - (c + 1),
            unixNow + (cfg.window - (now - ws)), false⟩,
          fun k => if k = key then some (c + 1, ws) else store k)
      else
        (⟨cfg.max_requests, 0, unixNow + (cfg.window - (now - ws)), true⟩,
          fun k => if k = key then some (c, ws) else store k) := by
  simp only [InMemoryStore.check, hs, Option.getD_some]
  rw [if_neg (not_le.mpr hwin)]

/-- Evaluation of one `InMemoryStore::check` call on an absent key. -/
theorem check_fresh (store : InMemoryStore) (key : String)
    (cfg : RateLimitConfig) (now unixNow : Nat)
    (hs : store key = none) (hpos : 0 < cfg.window) :
    store.check key cfg now unixNow =
      if 0 < cfg.max_requests then
        (⟨cfg.max_requests, cfg.max_requests - 1,
            unixNow + cfg.window, false⟩,
          fun k => if k = key then some (1, now) else store k)
      else
        (⟨cfg.max_requests, 0, unixNow + cfg.window, true⟩,
          fun k => if k = key then some (0, now) else store k) := by
  simp only [InMemoryStore.check, hs, Option.getD_none, Prod.fst, Prod.snd,
    Nat.sub_self, Nat.sub_zero]
  rw [if_neg (show ¬ cfg.window ≤ 0 by omega)]
  split <;> simp

/-- The run produces one info per call. -/
theorem runChecks_length (store : InMemoryStore) (key : String)
    (cfg : RateLimitConfig) (times : List (Nat × Nat)) :
    (runChecks store key cfg times).1.length = times.length := by
  induction times generalizing store with
  | nil => rfl
  | cons t rest ih => simp [runChecks, ih]

/-- Characterization of a run of checks on one key within a single window,
starting from a store holding `(c, ws)` for the key: the final stored count
is `min (c + n) limit` with an unchanged window start, and the i-th response
is fully determined. -/
theorem runChecks_getD (key : String) (cfg : RateLimitConfig) :
    ∀ (times : List (Nat × Nat)) (c ws : Nat) (store : InMemoryStore),
      c ≤ cfg.max_requests →
      store key = some (c, ws) →
      (∀ t ∈ times, t.1 - ws < cfg.window) →
      (runChecks store key cfg times).2 key
          = some (min (c + times.length) cfg.max_requests, ws) ∧
      ∀ i, i < times.length →
        (runChecks store key cfg times).1.getD i ⟨0, 0, 0, false⟩ =
          ⟨cfg.max_requests, cfg.max_requests - (c + i + 1),
            (times.getD i (0, 0)).2
              + (cfg.window - ((times.getD i (0, 0)).1 - ws)),
            decide (cfg.max_requests < c + i + 1)⟩ := by
  intro times
  induction times with
  | nil =>
    intro c ws store hc hs _
    refine ⟨?_, ?_⟩
    · show store key = some (min (c + List.length []) cfg.max_requests, ws)
      rw [hs]
      congr 2
      simp
      omega
    · intro i hi; exact absurd hi (by simp)
  | cons t rest ih =>
    intro c ws store hc hs hW
    have hwin : t.1 - ws < cfg.window := hW t (List.mem_cons_self t rest)
    have hstep := check_no_reset store key cfg t.1 t.2 c ws hs hwin
    have hWrest : ∀ u ∈ rest, u.1 - ws < cfg.window :=
      fun u hu => hW u (List.mem_cons_of_mem t hu)
    by_cases hlt : c < cfg.max_requests
    · rw [if_pos hlt] at hstep
      have hs1 : (store.check key cfg t.1 t.2).2 key = some (c + 1, ws) := by
        rw [hstep]; simp
      have hih := ih (c + 1) ws ((store.check key cfg t.1 t.2).2) hlt hs1 hWrest
      have hinfo : (store.check key cfg t.1 t.2).1 =
          ⟨cfg.max_requests, cfg.max_requests - (c + 1),
            t.2 + (cfg.window - (t.1 - ws)), false⟩ := by
        rw [hstep]
      constructor
      · show (runChecks (store.check key cfg t.1 t.2).2 key cfg rest).2 key = _
        rw [hih.1]
        simp only [List.length_cons]
        congr 2
        omega
      · intro i hi
        match i with
        | 0 =>
          show (store.check key cfg t.1 t.2).1 = _
          rw [hinfo]
          have hnd : ¬ cfg.max_requests < c + 0 + 1 := by omega
          simp [hnd]
        | j + 1 =>
          show (runChecks (store.check key cfg t.1 t.2).2 key cfg rest).1.getD j _ = _
          rw [hih.2 j (by simpa using hi)]
          simp only [List.getD_cons_succ]
          have hadd : c + 1 + j + 1 = c + (j + 1) + 1 := by omega
          rw [hadd]
    · have hceq : c = cfg.max_requests := le_antisymm hc (not_lt.mp hlt)
      rw [if_neg hlt] at hstep
      have hs1 : (store.check key cfg t.1 t.2).2 key = some (c, ws) := by
        rw [hstep]; simp
      have hih := ih c ws ((store.check key cfg t.1 t.2).2) hc hs1 hWrest
      have hinfo : (store.check key cfg t.1 t.2).1 =
          ⟨cfg.max_requests, 0, t.2 + (cfg.window - (t.1 - ws)), true⟩ := by
        rw [hstep]
      constructor
      · show (runChecks (store.check key cfg t.1 t.2).2 key cfg rest).2 key = _
        rw [hih.1]
        simp only [List.length_cons]
        congr 2
        omega
      · intro i hi
        match i with
        | 0 =>
          show (store.check key cfg t.1 t.2).1 = _
          rw [hinfo]
          have hd : cfg.max_requests < c + 0 + 1 := by omega
          have hz : cfg.max_requests - (c + 0 + 1) = 0 := by omega
          simp [hd, hz]
        | j + 1 =>
          show (runChecks (store.check key cfg t.1 t.2).2 key cfg rest).1.getD j _ = _
          rw [hih.2 j (by simpa using hi)]
          simp only [List.getD_cons_succ]
          have h1 : cfg.max_requests < c + j + 1 := by omega
          have h2 : cfg.max_requests < c + (j + 1) + 1 := by omega
          have hz : cfg.max_requests - (c + j + 1) = cfg.max_requests - (c + (j + 1) + 1) := by
            omega
          simp [h1, h2, hz]

/-- Allowed/denied counting for a run on one key within a single window. -/
theorem countAllowed_run (key : String) (cfg : RateLimitConfig) :
    ∀ (times : List (Nat × Nat)) (c ws : Nat) (store : InMemoryStore),
      c ≤ cfg.max_requests →
      store key = some (c, ws) →
      (∀ t ∈ times, t.1 - ws < cfg.window) →
      countAllowed (runChecks store key cfg times).1
          = min times.length (cfg.max_requests - c) ∧
      countDenied (runChecks store key cfg times).1
          = times.length - min times.length (cfg.max_requests - c) := by
  intro times
  induction times with
  | nil =>
    intro c ws store _ _ _
    simp [runChecks, countAllowed, countDenied]
  | cons t rest ih =>
    intro c ws store hc hs hW
    have hwin : t.1 - ws < cfg.window := hW t (List.mem_cons_self t rest)
    have hstep := check_no_reset store key cfg t.1 t.2 c ws hs hwin
    have hWrest : ∀ u ∈ rest, u.1 - ws < cfg.window :=
      fun u hu => hW u (List.mem_cons_of_mem t hu)
    by_cases hlt : c < cfg.max_requests
    · rw [if_pos hlt] at hstep
      have hs1 : (store.check key cfg t.1 t.2).2 key = some (c + 1, ws) := by
        rw [hstep]; simp
      have hih := ih (c + 1) ws ((store.check key cfg t.1 t.2).2) hlt hs1 hWrest
      have hinfo : (store.check key cfg t.1 t.2).1 =
          ⟨cfg.max_requests, cfg.max_requests - (c + 1),
            t.2 + (cfg.window - (t.1 - ws)), false⟩ := by
        rw [hstep]
      unfold countAllowed countDenied at hih ⊢
      constructor
      · show List.countP (fun i => !i.denied)
            ((store.check key cfg t.1 t.2).1 ::
              (runChecks (store.check key cfg t.1 t.2).2 key cfg rest).1) = _
        rw [List.countP_cons, hih.1, hinfo]
        simp only [List.length_cons]
        simp
        omega
      · show List.countP (fun i => i.denied)
            ((store.check key cfg t.1 t.2).1 ::
              (runChecks (store.check key cfg t.1 t.2).2 key cfg rest).1) = _
        rw [List.countP_cons, hih.2, hinfo]
        simp only [List.length_cons]
        simp
        omega
    · rw [if_neg hlt] at hstep
      have hceq : c = cfg.max_requests := le_antisymm hc (not_lt.mp hlt)
      have hs1 : (store.check key cfg t.1 t.2).2 key = some (c, ws) := by
        rw [hstep]; simp
      have hih := ih c ws ((store.check key cfg t.1 t.2).2) hc hs1 hWrest
      have hinfo : (store.check key cfg t.1 t.2).1 =
          ⟨cfg.max_requests, 0, t.2 + (cfg.window - (t.1 - ws)), true⟩ := by
        rw [hstep]
      unfold countAllowed countDenied at hih ⊢
      constructor
      · show List.countP (fun i => !i.denied)
            ((store.check key cfg t.1 t.2).1 ::
              (runChecks (store.check key cfg t.1 t.2).2 key cfg rest).1) = _
        rw [List.countP_cons, hih.1, hinfo]
        simp only [List.length_cons]
        simp
        omega
      · show List.countP (fun i => i.denied)
            ((store.check key cfg t.1 t.2).1 ::
              (runChecks (store.check key cfg t.1 t.2).2 key cfg rest).1) = _
        rw [List.countP_cons, hih.2, hinfo]
        simp only [List.length_cons]
        simp
        omega

/-- A check never touches the entries of other keys. -/
theorem check_other_key (store : InMemoryStore) (key : String)
    (cfg : RateLimitConfig) (now unixNow : Nat) (k : String) (hk : k ≠ key) :
    (store.check key cfg now unixNow).2 k = store k := by
  simp only [InMemoryStore.check]
  split <;> (split <;> simp [hk])

/-- After one check, any stored entry either has a count within the checked
configuration's bound (and belongs to the checked key), or coincides with a
count stored before the call. -/
theorem check_count_cases (store : InMemoryStore) (key : String)
    (cfg : RateLimitConfig) (now unixNow : Nat) (k : String) (c ws : Nat)
    (h : (store.check key cfg now unixNow).2 k = some (c, ws)) :
    (k = key ∧ c ≤ cfg.max_requests) ∨ ∃ ws0, store k = some (c, ws0) := by
  by_cases hk : k = key
  · subst hk
    rcases h0 : store k with _ | e0
    · simp only [InMemoryStore.check, h0, Option.getD_none] at h
      rw [ite_self] at h
      split at h <;> simp at h <;> obtain ⟨hc, -⟩ := h
      · left
        refine ⟨rfl, ?_⟩
        omega
      · left
        exact ⟨rfl, by omega⟩
    · obtain ⟨c0, ws0⟩ := e0
      simp only [InMemoryStore.check, h0, Option.getD_some] at h
      by_cases hreset : cfg.window ≤ now - ws0
      · rw [if_pos hreset] at h
        split at h <;> simp at h <;> obtain ⟨hc, -⟩ := h
        · left
          refine ⟨rfl, ?_⟩
          omega
        · left
          exact ⟨rfl, by omega⟩
      · rw [if_neg hreset] at h
        split at h <;> simp at h <;> obtain ⟨hc, hw⟩ := h
        · rename_i hcnt
          left
          refine ⟨rfl, ?_⟩
          simp at hcnt
          omega
        · right
          refine ⟨ws0, ?_⟩
          simp [h0, hc]
  · right
    rw [check_other_key store key cfg now unixNow k hk] at h
    exact ⟨ws, h⟩

/-- Counts stay within each key's configured bound along any multi-key run,
provided they did at the start. -/
theorem runMulti_bound (cfgOf : String → RateLimitConfig) :
    ∀ (calls : List (String × Nat × Nat)) (store : InMemoryStore),
      (∀ k c ws, store k = some (c, ws) → c ≤ (cfgOf k).max_requests) →
      ∀ k c ws, runMulti cfgOf store calls k = some (c, ws) →
        c ≤ (cfgOf k).max_requests := by
  intro calls
  induction calls with
  | nil => intro store hinv k c ws h; exact hinv k c ws h
  | cons call rest ih =>
    intro store hinv k c ws h
    refine ih _ ?_ k c ws h
    intro kp cp wsp hp
    rcases check_count_cases store call.1 (cfgOf call.1) call.2.1 call.2.2
        kp cp wsp hp with ⟨hkk, hle⟩ | ⟨ws0, hs0⟩
    · rw [hkk]; exact hle
    · exact hinv kp cp ws0 hs0

/-! ## Claim theorems -/

/-- C1 (confirmed): in-memory rate limiter conservation.  For every key and
configuration, and every nonempty sequence of `InMemoryStore::check` calls on
that key whose monotonic times all fall inside the window opened by the first
call (so no reset elapses between them), exactly `min n limit` of the calls
come back with `denied = false` and the remaining `n - min n limit` with
`denied = true`. -/
theorem inMemory_conservation (key : String) (cfg : RateLimitConfig)
    (t0 : Nat × Nat) (rest : List (Nat × Nat))
    (hW : ∀ t ∈ t0 :: rest, t.1 - t0.1 < cfg.window) :
    countAllowed (runChecks emptyStore key cfg (t0 :: rest)).1
        = min (t0 :: rest).length cfg.max_requests ∧
    countDenied (runChecks emptyStore key cfg (t0 :: rest)).1
        = (t0 :: rest).length - min (t0 :: rest).length cfg.max_requests := by
  have hpos : 0 < cfg.window := by
    have := hW t0 (List.mem_cons_self t0 rest)
    omega
  have hfresh := check_fresh emptyStore key cfg t0.1 t0.2 rfl hpos
  have hWrest : ∀ u ∈ rest, u.1 - t0.1 < cfg.window :=
    fun u hu => hW u (List.mem_cons_of_mem t0 hu)
  by_cases h0 : 0 < cfg.max_requests
  · rw [if_pos h0] at hfresh
    have hs1 : (emptyStore.check key cfg t0.1 t0.2).2 key = some (1, t0.1) := by
      rw [hfresh]; simp
    have hcount := countAllowed_run key cfg rest 1 t0.1
      ((emptyStore.check key cfg t0.1 t0.2).2) h0 hs1 hWrest
    have hinfo : (emptyStore.check key cfg t0.1 t0.2).1 =
        ⟨cfg.max_requests, cfg.max_requests - 1, t0.2 + cfg.window, false⟩ := by
      rw [hfresh]
    unfold countAllowed countDenied at hcount ⊢
    constructor
    · show List.countP (fun i => !i.denied)
          ((emptyStore.check key cfg t0.1 t0.2).1 ::
            (runChecks (emptyStore.check key cfg t0.1 t0.2).2 key cfg rest).1) = _
      rw [List.countP_cons, hcount.1, hinfo]
      simp only [List.length_cons]
      simp
      omega
    · show List.countP (fun i => i.denied)
          ((emptyStore.check key cfg t0.1 t0.2).1 ::
            (runChecks (emptyStore.check key cfg t0.1 t0.2).2 key cfg rest).1) = _
      rw [List.countP_cons, hcount.2, hinfo]
      simp only [List.length_cons]
      simp
      omega
  · rw [if_neg h0] at hfresh
    have hs1 : (emptyStore.check key cfg t0.1 t0.2).2 key = some (0, t0.1) := by
      rw [hfresh]; simp
    have hcount := countAllowed_run key cfg rest 0 t0.1
      ((emptyStore.check key cfg t0.1 t0.2).2) (by omega) hs1 hWrest
    have hinfo : (emptyStore.check key cfg t0.1 t0.2).1 =
        ⟨cfg.max_requests, 0, t0.2 + cfg.window, true⟩ := by
      rw [hfresh]
    unfold countAllowed countDenied at hcount ⊢
    constructor
    · show List.countP (fun i => !i.denied)
          ((emptyStore.check key cfg t0.1 t0.2).1 ::
            (runChecks (emptyStore.check key cfg t0.1 t0.2).2 key cfg rest).1) = _
      rw [List.countP_cons, hcount.1, hinfo]
      simp only [List.length_cons]
      simp
      omega
    · show List.countP (fun i => i.denied)
          ((emptyStore.check key cfg t0.1 t0.2).1 ::
            (runChecks (emptyStore.check key cfg t0.1 t0.2).2 key cfg rest).1) = _
      rw [List.countP_cons, hcount.2, hinfo]
      simp only [List.length_cons]
      simp
      omega

/-- Witness for C1: three checks against limit 2 inside one window give
exactly `min 3 2 = 2` allows and one deny. -/
theorem inMemory_conservation_witness :
    countAllowed (runChecks emptyStore "k" ⟨2, 60⟩
        [(0, 100), (5, 105), (10, 110)]).1 = 2 ∧
    countDenied (runChecks emptyStore "k" ⟨2, 60⟩
        [(0, 100), (5, 105), (10, 110)]).1 = 1 := by
  have h := inMemory_conservation "k" ⟨2, 60⟩ (0, 100) [(5, 105), (10, 110)]
    (by decide)
  constructor
  · rw [h.1]; decide
  · rw [h.2]; decide

/-- C4 (confirmed): limiter decision contract.  In-memory: for a sequence of
checks on one `(key, config)` inside a single window, the i-th response (the
observed count being `i + 1`) has `limit = max_requests`,
`remaining = limit - (i + 1)` (truncated subtraction, i.e. `max 0` and 0 when
denied), `reset = unixNow_i + (window - elapsed_i)` — the UTC second the
current window ends — and `denied = (i + 1 > limit)`.  Redis: when `INCR`
returns the observed count and `TTL` returns the remaining window `ttl`, the
decision is `limit = max_requests`, `remaining = limit - count`,
`reset = unixNow + ttl` (the second the window expires), and
`denied = (count > limit)`. -/
theorem limiter_decision_contract (key : String) (cfg : RateLimitConfig) :
    (∀ (t0 : Nat × Nat) (rest : List (Nat × Nat)),
      (∀ t ∈ t0 :: rest, t.1 - t0.1 < cfg.window) →
      ∀ i, i < (t0 :: rest).length →
        (runChecks emptyStore key cfg (t0 :: rest)).1.getD i ⟨0, 0, 0, false⟩ =
          ⟨cfg.max_requests, cfg.max_requests - (i + 1),
            ((t0 :: rest).getD i (0, 0)).2
              + (cfg.window - (((t0 :: rest).getD i (0, 0)).1 - t0.1)),
            decide (cfg.max_requests < i + 1)⟩)
    ∧ (∀ (count ttl unixNow : Nat) (expireRes : Option Unit),
      Backend.checkRedis (some count) expireRes (some ttl) cfg unixNow =
        ⟨cfg.max_requests, cfg.max_requests - count, unixNow + ttl,
          decide (cfg.max_requests < count)⟩) := by
  constructor
  · intro t0 rest hW i hi
    have hpos : 0 < cfg.window := by
      have := hW t0 (List.mem_cons_self t0 rest)
      omega
    have hfresh := check_fresh emptyStore key cfg t0.1 t0.2 rfl hpos
    have hWrest : ∀ u ∈ rest, u.1 - t0.1 < cfg.window :=
      fun u hu => hW u (List.mem_cons_of_mem t0 hu)
    by_cases h0 : 0 < cfg.max_requests
    · rw [if_pos h0] at hfresh
      have hs1 : (emptyStore.check key cfg t0.1 t0.2).2 key = some (1, t0.1) := by
        rw [hfresh]; simp
      have hspec := runChecks_getD key cfg rest 1 t0.1
        ((emptyStore.check key cfg t0.1 t0.2).2) h0 hs1 hWrest
      match i with
      | 0 =>
        show (emptyStore.check key cfg t0.1 t0.2).1 = _
        rw [hfresh]
        have hnd : ¬ cfg.max_requests < 0 + 1 := by omega
        simp [hnd]
      | j + 1 =>
        show (runChecks (emptyStore.check key cfg t0.1 t0.2).2 key cfg rest).1.getD
            j _ = _
        rw [hspec.2 j (by simpa using hi)]
        simp only [List.getD_cons_succ]
        have hadd : 1 + j + 1 = j + 1 + 1 := by omega
        rw [hadd]
    · rw [if_neg h0] at hfresh
      have hmax : cfg.max_requests = 0 := by omega
      have hs1 : (emptyStore.check key cfg t0.1 t0.2).2 key = some (0, t0.1) := by
        rw [hfresh]; simp
      have hspec := runChecks_getD key cfg rest 0 t0.1
        ((emptyStore.check key cfg t0.1 t0.2).2) (by omega) hs1 hWrest
      match i with
      | 0 =>
        show (emptyStore.check key cfg t0.1 t0.2).1 = _
        rw [hfresh]
        have hd : cfg.max_requests < 0 + 1 := by omega
        simp [hd, hmax]
      | j + 1 =>
        show (runChecks (emptyStore.check key cfg t0.1 t0.2).2 key cfg rest).1.getD
            j _ = _
        rw [hspec.2 j (by simpa using hi)]
        simp only [List.getD_cons_succ]
        have e1 : cfg.max_requests - (0 + j + 1) = cfg.max_requests - (j + 1 + 1) := by
          omega
        have e2 : decide (cfg.max_requests < 0 + j + 1)
            = decide (cfg.max_requests < j + 1 + 1) := by
          have h1 : cfg.max_requests < j + 1 := by omega
          have h2 : cfg.max_requests < j + 1 + 1 := by omega
          simp [h1, h2]
        rw [e1, e2]
  · intro count ttl unixNow expireRes
    by_cases hd : cfg.max_requests < count
    · have hz : cfg.max_requests - count = 0 := by omega
      simp [Backend.checkRedis, redis_check, hd, hz]
    · simp [Backend.checkRedis, redis_check, hd]

/-- Witness for C4: the third check against limit 2 (observed count 3) is
denied with remaining 0 and reset at the end of the window opened by the
first call; and a Redis decision with count 5 ≥ limit 3 and 17 seconds of
TTL left denies with remaining 0 and reset `now + 17`. -/
theorem limiter_decision_contract_witness :
    (runChecks emptyStore "k" ⟨2, 60⟩
        [(0, 100), (5, 105), (10, 110)]).1.getD 2 ⟨0, 0, 0, false⟩ =
      ⟨2, 0, 160, true⟩ ∧
    Backend.checkRedis (some 5) (some ()) (some 17) ⟨3, 60⟩ 1000 =
      ⟨3, 0, 1017, true⟩ := by
  constructor
  · have h := (limiter_decision_contract "k" ⟨2, 60⟩).1 (0, 100)
      [(5, 105), (10, 110)] (by decide) 2 (by decide)
    rw [h]
    decide
  · have h := (limiter_decision_contract "k" ⟨3, 60⟩).2 5 17 1000 (some ())
    rw [h]
    decide

/-- C10 (confirmed): in-memory limiter counter invariant.  Along every
sequence of `InMemoryStore::check` calls in which each key is always checked
with the same configuration (`cfgOf`), no stored count ever exceeds that
configuration's `max_requests`; and a check that comes back denied while the
key's window has not expired leaves the stored `(count, window_start)` pair
unchanged. -/
theorem inMemory_counter_invariant :
    (∀ (cfgOf : String → RateLimitConfig) (calls : List (String × Nat × Nat))
        (key : String) (c ws : Nat),
      runMulti cfgOf emptyStore calls key = some (c, ws) →
      c ≤ (cfgOf key).max_requests)
    ∧ (∀ (store : InMemoryStore) (key : String) (cfg : RateLimitConfig)
        (now unixNow c ws : Nat),
      store key = some (c, ws) → now - ws < cfg.window →
      (store.check key cfg now unixNow).1.denied = true →
      (store.check key cfg now unixNow).2 key = some (c, ws)) := by
  constructor
  · intro cfgOf calls key c ws h
    refine runMulti_bound cfgOf calls emptyStore ?_ key c ws h
    intro k c0 ws0 h0
    exact absurd h0 (by simp [emptyStore])
  · intro store key cfg now unixNow c ws hs hwin hdenied
    have hstep := check_no_reset store key cfg now unixNow c ws hs hwin
    by_cases hlt : c < cfg.max_requests
    · rw [if_pos hlt] at hstep
      rw [hstep] at hdenied
      simp at hdenied
    · rw [if_neg hlt] at hstep
      rw [hstep]
      simp

/-- Witness for C10: after three same-config checks on key `k` with limit 2
the stored count is 2 (within the bound the theorem yields), and a denied
in-window check returns the stored pair unchanged. -/
theorem inMemory_counter_invariant_witness :
    runMulti (fun _ => ⟨2, 60⟩) emptyStore
        [("k", 0, 100), ("k", 1, 101), ("k", 2, 102)] "k" = some (2, 0) ∧
    2 ≤ (2 : Nat) ∧
    (InMemoryStore.check (fun k => if k = "k" then some (2, 0) else none)
        "k" ⟨2, 60⟩ 3 103).2 "k" = some (2, 0) := by
  refine ⟨by decide, ?_, ?_⟩
  · exact inMemory_counter_invariant.1 (fun _ => ⟨2, 60⟩)
      [("k", 0, 100), ("k", 1, 101), ("k", 2, 102)] "k" 2 0 (by decide)
  · exact inMemory_counter_invariant.2
      (fun k => if k = "k" then some (2, 0) else none)
      "k" ⟨2, 60⟩ 3 103 2 0 (by decide) (by decide) (by decide)

/-- C2 counterexample: the claim "whenever any Redis command fails,
`Backend::check` returns an allow decision with `remaining = max_requests`"
is false.  Here `INCR` succeeds with count 5 against limit 3 but the `TTL`
read fails (`ttlRes = none`): a Redis command failed, yet the decision is a
deny with `remaining = 0`, not an allow with `remaining = 3`. -/
theorem redis_fail_open_counterexample :
    Backend.checkRedis (some 5) (some ()) none ⟨3, 60⟩ 1000 =
      ⟨3, 0, 1060, true⟩ ∧
    ¬ ((Backend.checkRedis (some 5) (some ()) none ⟨3, 60⟩ 1000).denied = false
      ∧ (Backend.checkRedis (some 5) (some ()) none ⟨3, 60⟩ 1000).remaining
          = 3) := by
  refine ⟨rfl, ?_⟩
  decide

/-- C2 as amended (confirmed): only a failure of the `INCR` command triggers
fail-open, in which case `Backend::check` returns `denied = false` with
`remaining = max_requests` and `reset = now + window`; a failed `EXPIRE` is
ignored and a failed `TTL` read falls back to the full window length for the
reset while the normal decision is returned.  No error is surfaced to the
caller in any case (the function totally returns a `RateLimitInfo`). -/
theorem redis_fail_open_amended (expireRes : Option Unit)
    (ttlRes : Option Nat) (cfg : RateLimitConfig) (unixNow : Nat) :
    Backend.checkRedis none expireRes ttlRes cfg unixNow =
      ⟨cfg.max_requests, cfg.max_requests, unixNow + cfg.window, false⟩
    ∧ ∀ count, Backend.checkRedis (some count) expireRes none cfg unixNow =
        Backend.checkRedis (some count) expireRes (some cfg.window) cfg
          unixNow := by
  exact ⟨rfl, fun _ => rfl⟩

/-- C3 (confirmed): per-record fault isolation in `SdexIndexer::index_offers`.
For every fetched page, a record whose `Offer::try_from` conversion fails is
skipped and the loop continues; failed asset or offer upserts do not abort
the batch (the asset-upsert oracle does not even occur in the result); the
method returns `Ok` with exactly the number of offers whose offer-upsert
succeeded among the successfully converted records. -/
theorem index_offers_fault_isolation {W : Type}
    (tryFrom : W → Except String Offer) (upsertAssetOk : Asset → Bool)
    (upsertOfferOk : Offer → Bool) (page : List W) :
    index_offers tryFrom upsertAssetOk upsertOfferOk (.ok page) =
      .ok (List.countP upsertOfferOk
        (page.filterMap (fun w => (tryFrom w).toOption))) := by
  have hloop : ∀ (l : List W) (acc : Nat),
      index_offers_loop tryFrom upsertAssetOk upsertOfferOk l acc =
        acc + List.countP upsertOfferOk
          (l.filterMap (fun w => (tryFrom w).toOption)) := by
    intro l
    induction l with
    | nil => intro acc; simp [index_offers_loop]
    | cons w rest ih =>
      intro acc
      rcases h : tryFrom w with e | offer
      · have hf : (fun u => (tryFrom u).toOption) w = none := by
          simp [h, Except.toOption]
        have hl : index_offers_loop tryFrom upsertAssetOk upsertOfferOk
              (w :: rest) acc
            = index_offers_loop tryFrom upsertAssetOk upsertOfferOk rest acc := by
          simp [index_offers_loop, h]
        rw [hl, ih, @List.filterMap_cons_none W Offer (fun u => (tryFrom u).toOption) w rest hf]
      · have hf : (fun u => (tryFrom u).toOption) w = some offer := by
          simp [h, Except.toOption]
        have hl : index_offers_loop tryFrom upsertAssetOk upsertOfferOk
              (w :: rest) acc
            = index_offers_loop tryFrom upsertAssetOk upsertOfferOk rest
                (if upsertOfferOk offer then acc + 1 else acc) := by
          simp [index_offers_loop, h]
        rw [hl, ih, @List.filterMap_cons_some W Offer (fun u => (tryFrom u).toOption) w rest offer hf,
          List.countP_cons]
        by_cases hu : upsertOfferOk offer
        · simp [hu]
          omega
        · simp [hu]
  show Except.ok (index_offers_loop tryFrom upsertAssetOk upsertOfferOk page 0)
      = _
  rw [hloop page 0]
  simp

/-- C5 (confirmed): client identity extraction.  `extract_ip` returns the
leftmost comma-separated token of `X-Forwarded-For`, trimmed and parsed, when
that parse succeeds; otherwise (header absent or its leftmost token
malformed) the trimmed `X-Real-IP` value when it parses; otherwise
`127.0.0.1`. -/
theorem extract_ip_preference (parseIp : List Char → Option IpAddr)
    (xff xri : Option (List Char)) :
    (∀ f ip, xff = some f →
      parseIp (trimChars (firstCommaToken f)) = some ip →
      extract_ip parseIp xff xri = ip)
    ∧ (∀ r ip,
      (∀ f, xff = some f → parseIp (trimChars (firstCommaToken f)) = none) →
      xri = some r → parseIp (trimChars r) = some ip →
      extract_ip parseIp xff xri = ip)
    ∧ ((∀ f, xff = some f → parseIp (trimChars (firstCommaToken f)) = none) →
      (∀ r, xri = some r → parseIp (trimChars r) = none) →
      extract_ip parseIp xff xri = IpAddr.v4 127 0 0 1) := by
  refine ⟨?_, ?_, ?_⟩
  · intro f ip hf hp
    subst hf
    simp [extract_ip, hp]
  · intro r ip hffNone hr hp
    subst hr
    cases xff with
    | none => simp [extract_ip, hp]
    | some f => simp [extract_ip, hffNone f rfl, hp]
  · intro hffNone hriNone
    cases xff with
    | none =>
      cases xri with
      | none => simp [extract_ip]
      | some r => simp [extract_ip, hriNone r rfl]
    | some f =>
      cases xri with
      | none => simp [extract_ip, hffNone f rfl]
      | some r => simp [extract_ip, hffNone f rfl, hriNone r rfl]

/-- Witness for C5: the leftmost `X-Forwarded-For` token `bogus` is
malformed, so extraction falls through to `X-Real-IP`, whose padded value
trims and parses to `10.0.0.1`. -/
theorem extract_ip_preference_witness :
    extract_ip sampleParseIp
      (some ['b', 'o', 'g', 'u', 's', ',', '9', '.', '9', '.', '9', '.', '9'])
      (some [' ', '1', '0', '.', '0', '.', '0', '.', '1', ' '])
      = IpAddr.v4 10 0 0 1 := by
  refine (extract_ip_preference sampleParseIp
      (some ['b', 'o', 'g', 'u', 's', ',', '9', '.', '9', '.', '9', '.', '9'])
      (some [' ', '1', '0', '.', '0', '.', '0', '.', '1', ' '])).2.1
    [' ', '1', '0', '.', '0', '.', '0', '.', '1', ' '] (IpAddr.v4 10 0 0 1)
    ?_ rfl ?_
  · intro f hf
    cases hf
    decide
  · decide

/-- C6 (confirmed): response-header emission.  Every response produced by
the middleware carries `X-RateLimit-Limit`, `X-RateLimit-Remaining`, and
`X-RateLimit-Reset`; a denied response additionally carries `Retry-After`
equal to `max 0 (reset - now)` (truncated subtraction), has status 429, and
its body's error tag is `rate_limit_exceeded`. -/
theorem rate_limit_header_emission (info : RateLimitInfo) (unixNow : Nat)
    (inner : HttpResponse) :
    (rateLimitServiceCall info unixNow inner).headers "x-ratelimit-limit"
        = some (toString info.limit)
    ∧ (rateLimitServiceCall info unixNow inner).headers "x-ratelimit-remaining"
        = some (toString info.remaining)
    ∧ (rateLimitServiceCall info unixNow inner).headers "x-ratelimit-reset"
        = some (toString info.reset)
    ∧ (info.denied = true →
      (rateLimitServiceCall info unixNow inner).headers "retry-after"
          = some (toString (info.reset - unixNow))
      ∧ (rateLimitServiceCall info unixNow inner).status = 429
      ∧ (rateLimitServiceCall info unixNow inner).errorBody
          = some ⟨"rate_limit_exceeded",
              "Too many requests. Please try again later."⟩) := by
  by_cases hd : info.denied
  · simp [rateLimitServiceCall, hd, add_rate_limit_headers, insertHeader]
  · simp [rateLimitServiceCall, hd, add_rate_limit_headers, insertHeader]

/-- Witness for C6: a denied decision (limit 2, reset 100) at wall time 40
produces a 429 with `Retry-After: 60` and the three rate-limit headers. -/
theorem rate_limit_header_emission_witness :
    (rateLimitServiceCall ⟨2, 0, 100, true⟩ 40
        ⟨200, fun _ => none, none⟩).status = 429
    ∧ (rateLimitServiceCall ⟨2, 0, 100, true⟩ 40
        ⟨200, fun _ => none, none⟩).headers "retry-after"
        = some (toString (60 : Nat))
    ∧ (rateLimitServiceCall ⟨2, 0, 100, true⟩ 40
        ⟨200, fun _ => none, none⟩).headers "x-ratelimit-limit"
        = some (toString (2 : Nat)) := by
  have h := rate_limit_header_emission ⟨2, 0, 100, true⟩ 40
    ⟨200, fun _ => none, none⟩
  have hd := h.2.2.2 rfl
  exact ⟨hd.2.1, hd.1, h.1⟩

/-- C7 (confirmed): `ApiError::into_response` status mapping — 400 for
`BadRequest`/`Validation`/`InvalidAsset`, 401 for `Unauthorized`, 404 for
`NotFound`/`NoRouteFound`, 429 for `RateLimitExceeded`, 500 for
`Database`/`Internal`; and for `Database`/`Internal` the body message is the
fixed generic string, independent of the underlying error text. -/
theorem api_error_status_mapping (msg : String) :
    (ApiError.BadRequest msg).into_response.1 = 400
    ∧ (ApiError.Validation msg).into_response.1 = 400
    ∧ (ApiError.InvalidAsset msg).into_response.1 = 400
    ∧ (ApiError.Unauthorized msg).into_response.1 = 401
    ∧ (ApiError.NotFound msg).into_response.1 = 404
    ∧ ApiError.NoRouteFound.into_response.1 = 404
    ∧ ApiError.RateLimitExceeded.into_response.1 = 429
    ∧ (ApiError.Database msg).into_response.1 = 500
    ∧ (ApiError.Internal msg).into_response.1 = 500
    ∧ (ApiError.Database msg).into_response.2.message
        = "An internal error occurred"
    ∧ (ApiError.Internal msg).into_response.2.message
        = "An internal error occurred" :=
  ⟨rfl, rfl, rfl, rfl, rfl, rfl, rfl, rfl, rfl, rfl, rfl⟩

/-- C8 (confirmed): `AssetInfo::to_canonical` equations — `native` when the
code is absent (whatever the issuer), `code ++ ":" ++ issuer` when both are
present, and the bare code when the issuer is absent. -/
theorem asset_canonical_form (t1 t2 t3 code issuer : String)
    (iss : Option String) :
    AssetInfo.to_canonical ⟨t1, none, iss⟩ = "native"
    ∧ AssetInfo.to_canonical ⟨t2, some code, some issuer⟩
        = code ++ ":" ++ issuer
    ∧ AssetInfo.to_canonical ⟨t3, some code, none⟩ = code :=
  ⟨rfl, rfl, rfl⟩

/-- C9 (code bug): the `HealthResponse` struct declared in response.rs
serializes with no `components` field at all and with `timestamp` as a JSON
integer, not an RFC3339 string — contradicting the claimed shape, the spec,
and the repository's own health_integration.rs test, which builds a
`HealthResponse` with a string timestamp and a components map. -/
theorem health_response_shape_bug :
    ((HealthResponse.mk "healthy" "0.1.0" 1737379200).toJson).lookupField
        "components" = none
    ∧ ((HealthResponse.mk "healthy" "0.1.0" 1737379200).toJson).lookupField
        "timestamp" = some (.int 1737379200)
    ∧ (((HealthResponse.mk "healthy" "0.1.0" 1737379200).toJson).lookupField
        "timestamp").map JsonValue.isString = some false :=
  ⟨rfl, rfl, rfl⟩

end StellarRoute
